import Mathlib

/-!
Verification of the two automation scripts of this repository:
`security_monitor.py` (static-analysis scanner) and
`secure_email_sender.py` (bulk mailer with dedup, session cap and pacing).

Definitions are shallow embeddings of the Python source.  Machine-level
details that the claims do not touch (SMTP wire format, pandas CSV parsing,
actual file IO, the float representation of delays) are abstracted as noted
in the doc comments: delays are modelled as rationals, file/network outcomes
as explicit parameters, and the `random` module as value streams consumed in
call order, with each call clamped into the range the library guarantees.
-/

/-! ## Scanner: `security_monitor.py` -/

/-- One scanner finding, the uniform dict shape built by the four check
functions.  Only bandit findings carry a `severity` key; the dict lookup
`f.get('severity')` is modelled by an `Option String` field that is `none`
for pattern/dependency findings. -/
structure Finding where
  file : String
  line : Nat
  content : String
  ftype : String
  severity : Option String
deriving DecidableEq

/-- Whitespace class of the regex `\s` (ASCII part): space, tab, newline,
carriage return, form feed, vertical tab. -/
def isSpaceChar (c : Char) : Bool :=
  c == Char.ofNat 32 || c == Char.ofNat 9 || c == Char.ofNat 10 ||
  c == Char.ofNat 13 || c == Char.ofNat 12 || c == Char.ofNat 11

/-- The character class `["\']` of the credential patterns: a double or a
single quote. -/
def isQuoteChar (c : Char) : Bool :=
  c == Char.ofNat 34 || c == Char.ofNat 39

/-- Greedy `\s*`: drop leading whitespace.  (`=` and the quotes are not
whitespace, so the greedy reading coincides with the backtracking one.) -/
def dropSpaces : List Char → List Char
  | [] => []
  | c :: rest => if isSpaceChar c then dropSpaces rest else c :: rest

/-- Case-insensitive literal-prefix match (models `re.IGNORECASE` on the
keyword part of the credential patterns, ASCII folding); returns the rest of
the input on success. -/
def stripPrefixCI : List Char → List Char → Option (List Char)
  | [], cs => some cs
  | _ :: _, [] => none
  | k :: ks, c :: cs => if c.toLower == k.toLower then stripPrefixCI ks cs else none

/-- `["\'][^"\']+["\']`: an opening quote, at least one non-quote character,
then a closing quote somewhere later.  Existential (backtracking) semantics:
a match exists iff the first character is a quote, the next one is not, and a
further quote occurs in the remainder (the earliest such quote witnesses the
match). -/
def matchQuoted : List Char → Bool
  | [] => false
  | c :: rest =>
    isQuoteChar c &&
      (match rest with
       | [] => false
       | d :: rest2 => !isQuoteChar d && rest2.any isQuoteChar)

/-- Match one credential pattern `key\s*=\s*["\'][^"\']+["\']` anchored at
the head of the input. -/
def matchCredAt (key : List Char) (cs : List Char) : Bool :=
  match stripPrefixCI key cs with
  | none => false
  | some rest =>
    match dropSpaces rest with
    | [] => false
    | c :: r2 => c == Char.ofNat 61 && matchQuoted (dropSpaces r2)

/-- `re.search` of one credential pattern: try every start position. -/
def credSearch (key : List Char) : List Char → Bool
  | [] => matchCredAt key []
  | c :: rest => matchCredAt key (c :: rest) || credSearch key rest

/-- Python substring test `needle in line`. -/
def containsSub (needle : List Char) : List Char → Bool
  | [] => needle.isEmpty
  | c :: rest => needle.isPrefixOf (c :: rest) || containsSub needle rest

/-- Python `str.strip()`: remove leading and trailing whitespace. -/
def pyStrip (s : String) : String :=
  String.mk (((s.data.dropWhile isSpaceChar).reverse.dropWhile isSpaceChar).reverse)

/-- The keyword part of the four credential regexes of
`check_for_hardcoded_credentials`, in source order. -/
def credKeys : List String := ["password", "api_key", "secret", "token"]

/-- Findings produced for one line by `check_for_hardcoded_credentials`: one
finding per matching pattern, suppressed when the line mentions
`os.getenv` or `input(`. -/
def lineFindings (fp : String) (n : Nat) (line : String) : List Finding :=
  credKeys.filterMap (fun k =>
    if credSearch k.data line.data &&
       !containsSub ("os.getenv".data) line.data &&
       !containsSub ("input(".data) line.data
    then some (Finding.mk fp n (pyStrip line) "Potential hardcoded credential" none)
    else none)

/-- Python `content.split('\n')` on the character list: every newline is a
separator, the empty content has one empty line. -/
def splitLines : List Char → List (List Char)
  | [] => [[]]
  | c :: rest =>
    if c == Char.ofNat 10 then [] :: splitLines rest
    else
      match splitLines rest with
      | [] => [[c]]
      | l :: ls => (c :: l) :: ls

/-- Findings for one file's content: split on newline, line numbers from 1. -/
def fileFindings (fp : String) (content : String) : List Finding :=
  (((splitLines content.data).map String.mk).enumFrom 1).flatMap
    (fun p => lineFindings fp p.1 p.2)

/-- The summary block of `generate_report`. -/
structure ReportSummary where
  total_issues : Nat
  high_severity : Nat
  medium_severity : Nat
  low_severity : Nat
  other_issues : Nat
deriving DecidableEq

/-- Severity bucketing of `generate_report`: counts over the concatenated
findings.  `other_issues` counts findings whose severity is not one of
HIGH/MEDIUM/LOW (in particular findings without a severity key). -/
def summarize (fs : List Finding) : ReportSummary :=
  ReportSummary.mk
    fs.length
    (fs.filter (fun f => f.severity == some "HIGH")).length
    (fs.filter (fun f => f.severity == some "MEDIUM")).length
    (fs.filter (fun f => f.severity == some "LOW")).length
    (fs.filter (fun f =>
      !(f.severity == some "HIGH" || f.severity == some "MEDIUM" ||
        f.severity == some "LOW"))).length

/-- Exit code returned by `generate_report`: 1 when at least one
high-severity finding exists, else 0. -/
def generate_report (fs : List Finding) : ReportSummary × Nat :=
  let s := summarize fs
  (s, if 0 < s.high_severity then 1 else 0)

/-- `main` of the scanner: concatenate the four finding sources (hardcoded
credentials, bandit, input validation, outdated dependencies) and return
`generate_report`'s exit code, which the process passes to `sys.exit`. -/
def scannerMain (cred bandit valid deps : List Finding) : Nat :=
  (generate_report (cred ++ bandit ++ valid ++ deps)).2

/-! ## Mailer: `secure_email_sender.py` -/

/-- `\w` of the address regex, ASCII part: letters, digits, underscore.
(The scripts only ever see ASCII addresses; the Unicode extension of `\w`
is not modelled.) -/
def isWordChar (c : Char) : Bool := c.isAlphanum || c == Char.ofNat 95

/-- The local-part class `[\w\.-]`. -/
def isLocalChar (c : Char) : Bool :=
  isWordChar c || c == Char.ofNat 46 || c == Char.ofNat 45

/-- The domain-label class `[\w\-]`. -/
def isDomChar (c : Char) : Bool := isWordChar c || c == Char.ofNat 45

/-- `[A-Za-z]{2,}$`: the whole remainder is at least two ASCII letters. -/
def isTld (cs : List Char) : Bool := decide (2 ≤ cs.length) && cs.all Char.isAlpha

/-- Domain tail after the first label character(s): state `true` means we
are inside a label `[\w\-]+` (at least one character already consumed),
state `false` means a label has just been closed by a dot, so either the
final `[A-Za-z]{2,}` or a further label may follow.  A dot is not a label
character, so label boundaries are forced and only the tail-versus-label
choice is disjunctive. -/
def matchDomain : List Char → Bool → Bool
  | cs, false =>
    isTld cs ||
      (match cs with
       | [] => false
       | c :: rest => isDomChar c && matchDomain rest true)
  | cs, true =>
    match cs with
    | [] => false
    | c :: rest =>
      if c == Char.ofNat 46 then matchDomain rest false
      else isDomChar c && matchDomain rest true

/-- `([\w\-]+\.)+[A-Za-z]{2,}$` starting right after the `@`: the domain
must open with a label character. -/
def matchDomainStart : List Char → Bool
  | [] => false
  | c :: rest => isDomChar c && matchDomain rest true

/-- `[\w\.-]+@...` after the first (mandatory) local character: local
characters never include `@`, so the `@` consumed is the first one. -/
def matchLocalRest : List Char → Bool
  | [] => false
  | c :: rest =>
    if c == Char.ofNat 64 then matchDomainStart rest
    else isLocalChar c && matchLocalRest rest

/-- `^[\w\.-]+@([\w\-]+\.)+[A-Za-z]{2,}$` at the start of the string. -/
def matchLocal : List Char → Bool
  | [] => false
  | c :: rest => isLocalChar c && matchLocalRest rest

/-- `is_valid_email`: `re.match` of the address pattern.  Python's `$` also
matches just before one trailing newline, and no class of the pattern
contains a newline, so a trailing newline is dropped first. -/
def is_valid_email (s : String) : Bool :=
  let cs0 := s.data
  let cs :=
    match cs0.getLast? with
    | some c => if c == Char.ofNat 10 then cs0.dropLast else cs0
    | none => cs0
  matchLocal cs

/-- One row of the recipients CSV (`email, first_name, company`). -/
structure Recipient where
  email : String
  first_name : String
  company : String
deriving DecidableEq

/-- One entry of the in-run log / sent ledger
(`{"email": ..., "status": ..., "error": ...}`). -/
structure LogEntry where
  email : String
  status : String
  error : String
deriving DecidableEq

/-- Abstraction of the `random` module: two value streams consumed in call
order (one for `random.randint`, one for `random.uniform`) together with the
positions of the next unconsumed values.  Floats are modelled as rationals. -/
structure Rng where
  ints : Nat → Nat
  floats : Nat → Rat
  iPos : Nat
  fPos : Nat

/-- `random.randint(a, b)`: the next integer draw, mapped into the inclusive
range `[a, b]` the library guarantees. -/
def randintVal (a b : Nat) (r : Rng) : Nat := a + r.ints r.iPos % (b - a + 1)

/-- Advance the integer stream after a `randint` call. -/
def nextI (r : Rng) : Rng := Rng.mk r.ints r.floats (r.iPos + 1) r.fPos

/-- `random.uniform(a, b)`: the next float draw, clamped into the inclusive
range `[a, b]` the library guarantees. -/
def uniformVal (a b : Rat) (r : Rng) : Rat := max a (min b (r.floats r.fPos))

/-- Advance the float stream after a `uniform` call. -/
def nextF (r : Rng) : Rng := Rng.mk r.ints r.floats r.iPos (r.fPos + 1)

/-- Observable actions of one run of `send_emails`, in order: send outcomes
per attempted recipient, dedup skips, and the two kinds of `time.sleep`
(per-message `random.uniform` delay with its call bounds, batch pause with
its `random.randint` call bounds). -/
inductive Event where
  | sent (email : String)
  | failed (email : String)
  | skipped (email : String)
  | sleep (lo hi : Rat) (d : Rat)
  | batchSleep (lo hi : Nat) (d : Nat)
deriving DecidableEq

/-- Mutable state of the send loop: `email_counter`, `batch_size`,
`total_sent`, `total_skipped`, the number of `server.sendmail` calls made so
far (indexing the outcome oracle), and the RNG. -/
structure LoopState where
  emailCounter : Nat
  batchSize : Nat
  totalSent : Nat
  totalSkipped : Nat
  attempts : Nat
  rng : Rng

/-- Result of the send loop: final state, the `log` list, and the emitted
events. -/
structure LoopOut where
  st : LoopState
  log : List LogEntry
  events : List Event

/-- `MAX_EMAILS_PER_SESSION`. -/
def MAX_EMAILS_PER_SESSION : Nat := 50

/-- The `for index, row in df.iterrows()` loop of `send_emails`.
`sres n` is the outcome of the `n`-th `server.sendmail` call (`none` =
success, `some msg` = the exception message); `already` is the email set
loaded from the ledger.  Each iteration: hard-stop when `total_sent` has
reached the cap; skip (counting only `total_skipped`) when the email is in
the ledger; otherwise attempt the send, append the Success/Failed log entry,
sleep `random.uniform(2, 12)`, bump `email_counter`, and when it reaches
`batch_size` sleep `random.randint(30, 90)`, reset the counter and redraw
`batch_size = random.randint(3, 7)`. -/
def sendLoop (sres : Nat → Option String) (already : List String) :
    List Recipient → LoopState → LoopOut
  | [], st => LoopOut.mk st [] []
  | r :: rest, st =>
    if MAX_EMAILS_PER_SESSION ≤ st.totalSent then LoopOut.mk st [] []
    else if already.contains r.email then
      let out := sendLoop sres already rest
        (LoopState.mk st.emailCounter st.batchSize st.totalSent
          (st.totalSkipped + 1) st.attempts st.rng)
      LoopOut.mk out.st out.log (Event.skipped r.email :: out.events)
    else
      let step : LogEntry × Event × Nat :=
        match sres st.attempts with
        | none =>
          (LogEntry.mk r.email "Success" "", Event.sent r.email, st.totalSent + 1)
        | some err =>
          (LogEntry.mk r.email "Failed" err, Event.failed r.email, st.totalSent)
      let delay := uniformVal 2 12 st.rng
      let rng1 := nextF st.rng
      let c1 := st.emailCounter + 1
      if st.batchSize ≤ c1 then
        let bd := randintVal 30 90 rng1
        let rng2 := nextI rng1
        let bs2 := randintVal 3 7 rng2
        let rng3 := nextI rng2
        let out := sendLoop sres already rest
          (LoopState.mk 0 bs2 step.2.2 st.totalSkipped (st.attempts + 1) rng3)
        LoopOut.mk out.st (step.1 :: out.log)
          (step.2.1 :: Event.sleep 2 12 delay :: Event.batchSleep 30 90 bd :: out.events)
      else
        let out := sendLoop sres already rest
          (LoopState.mk c1 st.batchSize step.2.2 st.totalSkipped (st.attempts + 1) rng1)
        LoopOut.mk out.st (step.1 :: out.log)
          (step.2.1 :: Event.sleep 2 12 delay :: out.events)

/-- Inputs and environment outcomes of one `send_emails` run.  File and
network effects the script only branches on are modelled as explicit fields:
existence of the resume and recipients files (`validate_files`), whether the
CSV read of `load_recipients` raises (`csvOk`, raising yields an empty
frame), the ledger file content (`none` = file absent) and whether its read
raises (`ledgerReadOk`, raising yields an empty set), whether the resume
read succeeds, and whether SMTP connect/starttls/login succeeds (an
authentication error and any other connect error both return). -/
structure Setup where
  resumeExists : Bool
  recipientsExists : Bool
  csvOk : Bool
  rawRecipients : List Recipient
  ledgerFile : Option (List LogEntry)
  ledgerReadOk : Bool
  resumeReadOk : Bool
  smtpOk : Bool

/-- `load_recipients`: read the CSV (an exception yields an empty frame)
and keep only rows whose email passes `is_valid_email`. -/
def loadRecipients (s : Setup) : List Recipient :=
  if s.csvOk then s.rawRecipients.filter (fun r => is_valid_email r.email) else []

/-- `load_sent_log`: the set of emails of the ledger file; an absent file or
a read error yields the empty set. -/
def loadSentLog (s : Setup) : List String :=
  match s.ledgerFile with
  | some rows => if s.ledgerReadOk then rows.map LogEntry.email else []
  | none => []

/-- `update_sent_log`: rewrite the ledger as the previous rows (when the
file exists) followed by this run's entries whose status is `Success`. -/
def update_sent_log (prev : Option (List LogEntry)) (log : List LogEntry) :
    List LogEntry :=
  match prev with
  | some rows => rows ++ log.filter (fun e => e.status == "Success")
  | none => log.filter (fun e => e.status == "Success")

/-- Loop state at loop entry: counters zero, `batch_size = random.randint(3, 7)`. -/
def initState (rng : Rng) : LoopState :=
  LoopState.mk 0 (randintVal 3 7 rng) 0 0 0 (nextI rng)

/-- Observable outcome of one `send_emails` run: the in-run log, the event
trace, the ledger file after the run, and the final loop state (`none` when
the run aborted before the loop). -/
structure RunResult where
  log : List LogEntry
  events : List Event
  ledgerAfter : Option (List LogEntry)
  finalState : Option LoopState

/-- `send_emails`: validate files, load and validate recipients (exiting
when none are valid), load the ledger, read the resume, connect to SMTP
(either failure returns), run the send loop, and rewrite the ledger.  Every
abort path leaves the ledger file untouched and attempts nothing. -/
def send_emails (s : Setup) (rng : Rng) (sres : Nat → Option String) : RunResult :=
  if !(s.resumeExists && s.recipientsExists) then RunResult.mk [] [] s.ledgerFile none
  else
    let df := loadRecipients s
    if df.isEmpty then RunResult.mk [] [] s.ledgerFile none
    else
      let already := loadSentLog s
      if !s.resumeReadOk then RunResult.mk [] [] s.ledgerFile none
      else if !s.smtpOk then RunResult.mk [] [] s.ledgerFile none
      else
        let out := sendLoop sres already df (initState rng)
        RunResult.mk out.log out.events
          (some (update_sent_log s.ledgerFile out.log)) (some out.st)

/-! ## Derived notions used by the claims -/

/-- Rows of a ledger file (`[]` when the file is absent). -/
def ledgerRows (o : Option (List LogEntry)) : List LogEntry := o.getD []

/-- Emails of a ledger file. -/
def ledgerEmails (o : Option (List LogEntry)) : List String :=
  (ledgerRows o).map LogEntry.email

/-- Recipients of a list that are eligible for a send attempt against the
given ledger email set: those whose email is not in it. -/
def eligible (already : List String) (rs : List Recipient) : List Recipient :=
  rs.filter (fun r => !(already.contains r.email))

/-- Number of eligible recipients. -/
def countEligible (already : List String) (rs : List Recipient) : Nat :=
  (eligible already rs).length

/-- Emails of the eligible recipients, in list order. -/
def eligibleEmails (already : List String) (rs : List Recipient) : List String :=
  (eligible already rs).map Recipient.email

/-- The log the loop produces when the session cap never triggers: one entry
per eligible recipient in order, Success or Failed according to the outcome
of the corresponding `sendmail` call (`k` is the index of the next call). -/
def expectedLog (sres : Nat → Option String) (already : List String) :
    List Recipient → Nat → List LogEntry
  | [], _ => []
  | r :: rest, k =>
    if already.contains r.email then expectedLog sres already rest k
    else
      (match sres k with
       | none => LogEntry.mk r.email "Success" ""
       | some err => LogEntry.mk r.email "Failed" err) ::
        expectedLog sres already rest (k + 1)

/-- The pacing discipline of the spec, as a shape predicate on event
traces: `Paced c b t` says trace `t` is well-paced when entered with
`email_counter = c` and current batch size `b`.  Skips insert nothing; every
processed message is immediately followed by one `uniform(2, 12)` delay in
[2, 12]; when the counter reaches the batch size a `randint(30, 90)` pause
in [30, 90] follows and a fresh batch size in [3, 7] governs the remainder.
The trace may end anywhere (the recipient list or the session cap ends the
run). -/
inductive Paced : Nat → Nat → List Event → Prop where
  | nil (c b : Nat) : Paced c b []
  | skip (c b : Nat) (e : String) (t : List Event) :
      Paced c b t → Paced c b (Event.skipped e :: t)
  | sentCont (c b : Nat) (e : String) (d : Rat) (t : List Event) :
      2 ≤ d → d ≤ 12 → c + 1 < b → Paced (c + 1) b t →
      Paced c b (Event.sent e :: Event.sleep 2 12 d :: t)
  | failCont (c b : Nat) (e : String) (d : Rat) (t : List Event) :
      2 ≤ d → d ≤ 12 → c + 1 < b → Paced (c + 1) b t →
      Paced c b (Event.failed e :: Event.sleep 2 12 d :: t)
  | sentPause (c b : Nat) (e : String) (d : Rat) (bd b2 : Nat) (t : List Event) :
      2 ≤ d → d ≤ 12 → b ≤ c + 1 → 30 ≤ bd → bd ≤ 90 → 3 ≤ b2 → b2 ≤ 7 →
      Paced 0 b2 t →
      Paced c b (Event.sent e :: Event.sleep 2 12 d :: Event.batchSleep 30 90 bd :: t)
  | failPause (c b : Nat) (e : String) (d : Rat) (bd b2 : Nat) (t : List Event) :
      2 ≤ d → d ≤ 12 → b ≤ c + 1 → 30 ≤ bd → bd ≤ 90 → 3 ≤ b2 → b2 ≤ 7 →
      Paced 0 b2 t →
      Paced c b (Event.failed e :: Event.sleep 2 12 d :: Event.batchSleep 30 90 bd :: t)

/-! ## Concrete instances for witnesses and counterexamples -/

/-- A fixed RNG environment: every integer draw 0, every float draw 5. -/
def rng0 : Rng := Rng.mk (fun _ => 0) (fun _ => 5) 0 0

/-- Outcome oracle: every `sendmail` call succeeds. -/
def allOk : Nat → Option String := fun _ => none

/-- Outcome oracle: every `sendmail` call raises. -/
def allFail : Nat → Option String := fun _ => some "rejected"

/-- 51 distinct, valid, fresh recipients. -/
def cexRecipients : List Recipient :=
  (List.range 51).map (fun i =>
    Recipient.mk (String.append (String.append "u" (toString i)) "@x.co") "First" "Co")

/-- Setup with the 51 recipients, no ledger file, all IO and SMTP fine. -/
def cexS : Setup := Setup.mk true true true cexRecipients none true true true

/-- The same setup re-run against the empty ledger a fully failing prior run
leaves behind. -/
def cexS2 : Setup := { cexS with ledgerFile := some [] }

/-- A single valid recipient. -/
def oneRecipient : Recipient := Recipient.mk "a@b.co" "Ann" "Acme"

/-- Setup with that one recipient, no ledger file, all IO and SMTP fine. -/
def oneS : Setup := Setup.mk true true true [oneRecipient] none true true true

/-- `oneS` with a second, invalid-format recipient in the CSV. -/
def mixedS : Setup :=
  { oneS with rawRecipients := [oneRecipient, Recipient.mk "not-an-email" "Bob" "Beta"] }

/-! ## Scanner theorems -/

/-- C9: For every list of aggregated findings, the report's `total_issues`
count equals the sum of the four severity-bucket counts
(`high_severity + medium_severity + low_severity + other_issues`), because
the buckets partition the findings. -/
theorem C9_total_is_bucket_sum (fs : List Finding) :
    (summarize fs).total_issues =
      (summarize fs).high_severity + (summarize fs).medium_severity +
        (summarize fs).low_severity + (summarize fs).other_issues := by
  simp only [summarize]
  induction fs with
  | nil => rfl
  | cons f t ih =>
    simp only [List.filter_cons, List.length_cons]
    rcases hf : f.severity with _ | sv
    · simp [hf] at ih ⊢
      omega
    · by_cases h1 : sv = "HIGH"
      · subst h1
        simp [hf] at ih ⊢
        omega
      · by_cases h2 : sv = "MEDIUM"
        · subst h2
          simp [hf] at ih ⊢
          omega
        · by_cases h3 : sv = "LOW"
          · subst h3
            simp [hf] at ih ⊢
            omega
          · simp [hf, h1, h2, h3] at ih ⊢
            omega

/-- C3: The scanner process exits with a failure (non-zero) status iff the
aggregated findings of the four sources contain at least one HIGH-severity
finding; any other mix (zero findings, tools unavailable and hence
contributing nothing) exits 0. -/
theorem C3_exit_nonzero_iff_high (cred bandit valid deps : List Finding) :
    scannerMain cred bandit valid deps ≠ 0 ↔
      0 < (summarize (cred ++ bandit ++ valid ++ deps)).high_severity := by
  simp only [scannerMain, generate_report]
  split
  · exact ⟨fun _ => by assumption, fun _ => one_ne_zero⟩
  · exact ⟨fun hh => absurd rfl hh, fun hp => absurd hp (by assumption)⟩

/-- C5: A line matching the password credential-assignment pattern (and no
other credential pattern) that mentions neither `os.getenv` nor `input(`
yields exactly one finding, of type `Potential hardcoded credential`; and a
whole file consisting of `password = os.getenv("X")` yields no finding. -/
theorem C5_hardcoded_credential_line (fp : String) (n : Nat) (line : String)
    (hp : credSearch ("password".data) line.data = true)
    (ha : credSearch ("api_key".data) line.data = false)
    (hs : credSearch ("secret".data) line.data = false)
    (ht : credSearch ("token".data) line.data = false)
    (hg : containsSub ("os.getenv".data) line.data = false)
    (hi : containsSub ("input(".data) line.data = false) :
    lineFindings fp n line =
      [Finding.mk fp n (pyStrip line) "Potential hardcoded credential" none] ∧
      fileFindings "f.py" "password = os.getenv(\"X\")" = [] := by
  constructor
  · simp [lineFindings, credKeys, hp, ha, hs, ht, hg, hi]
  · decide

/-- Witness for C5 at the spec's example line `password = "literal123"`. -/
theorem C5_witness :
    (credSearch ("password".data) ("password = \"literal123\"".data) = true ∧
     containsSub ("os.getenv".data) ("password = \"literal123\"".data) = false ∧
     containsSub ("input(".data) ("password = \"literal123\"".data) = false) ∧
    (lineFindings "f.py" 3 "password = \"literal123\"" =
      [Finding.mk "f.py" 3 (pyStrip "password = \"literal123\"")
        "Potential hardcoded credential" none] ∧
      fileFindings "f.py" "password = os.getenv(\"X\")" = []) :=
  ⟨⟨by decide, by decide, by decide⟩,
   C5_hardcoded_credential_line "f.py" 3 "password = \"literal123\""
     (by decide) (by decide) (by decide) (by decide) (by decide) (by decide)⟩

/-! ## Mailer lemmas -/

/-- `random.randint(a, b)` never returns less than `a`. -/
theorem le_randintVal (a b : Nat) (r : Rng) : a ≤ randintVal a b r :=
  Nat.le_add_right a _

/-- `random.randint(a, b)` never returns more than `b` (for `a ≤ b`). -/
theorem randintVal_le (a b : Nat) (r : Rng) (h : a ≤ b) : randintVal a b r ≤ b := by
  have hm : r.ints r.iPos % (b - a + 1) < b - a + 1 :=
    Nat.mod_lt _ (Nat.succ_pos _)
  unfold randintVal
  omega

/-- `random.uniform(a, b)` never returns less than `a`. -/
theorem le_uniformVal (a b : Rat) (r : Rng) : a ≤ uniformVal a b r :=
  le_max_left a _

/-- `random.uniform(a, b)` never returns more than `b` (for `a ≤ b`). -/
theorem uniformVal_le (a b : Rat) (r : Rng) (h : a ≤ b) : uniformVal a b r ≤ b :=
  max_le h (min_le_left b _)

/-- A ledger-present recipient does not change the eligible count. -/
theorem countEligible_cons_mem (already : List String) (r : Recipient)
    (rest : List Recipient) (h : already.contains r.email = true) :
    countEligible already (r :: rest) = countEligible already rest := by
  have hm : r.email ∈ already := by simpa using h
  simp [countEligible, eligible, List.filter_cons, hm]

/-- A fresh recipient adds one to the eligible count. -/
theorem countEligible_cons_not_mem (already : List String) (r : Recipient)
    (rest : List Recipient) (h : already.contains r.email = false) :
    countEligible already (r :: rest) = countEligible already rest + 1 := by
  have hm : r.email ∉ already := by simpa using h
  simp [countEligible, eligible, List.filter_cons, hm]

/-- With no eligible recipient the expected log is empty. -/
theorem expectedLog_eq_nil (sres : Nat → Option String) (already : List String) :
    ∀ (rs : List Recipient) (k : Nat), countEligible already rs = 0 →
      expectedLog sres already rs k = [] := by
  intro rs
  induction rs with
  | nil => intro k _; rfl
  | cons r rest ih =>
    intro k h
    by_cases hmem : already.contains r.email = true
    · have hm : r.email ∈ already := by simpa using hmem
      rw [countEligible_cons_mem _ _ _ hmem] at h
      simp [expectedLog, hm, ih k h]
    · rw [Bool.not_eq_true] at hmem
      rw [countEligible_cons_not_mem _ _ _ hmem] at h
      omega

/-- The expected log lists exactly the eligible emails, in order. -/
theorem expectedLog_map_email (sres : Nat → Option String) (already : List String) :
    ∀ (rs : List Recipient) (k : Nat),
      (expectedLog sres already rs k).map LogEntry.email =
        eligibleEmails already rs := by
  intro rs
  induction rs with
  | nil => intro k; rfl
  | cons r rest ih =>
    intro k
    by_cases hmem : already.contains r.email = true
    · have hm : r.email ∈ already := by simpa using hmem
      simp [expectedLog, hm, eligibleEmails, eligible, List.filter_cons]
      simpa [eligibleEmails, eligible] using ih k
    · rw [Bool.not_eq_true] at hmem
      have hm : r.email ∉ already := by simpa using hmem
      have ih2 := ih (k + 1)
      simp only [eligibleEmails, eligible] at ih2
      rcases hs : sres k with _ | err <;>
        simp [expectedLog, hm, hs, eligibleEmails, eligible, List.filter_cons, ih2]

/-- As long as the session cap cannot trigger (current successes plus all
remaining eligible recipients stay within the cap), the loop's log is the
expected log: one entry per eligible recipient, statuses given by the
outcome oracle at consecutive attempt indices. -/
theorem sendLoop_log_eq (sres : Nat → Option String) (already : List String) :
    ∀ (rs : List Recipient) (st : LoopState),
      st.totalSent + countEligible already rs ≤ MAX_EMAILS_PER_SESSION →
      (sendLoop sres already rs st).log = expectedLog sres already rs st.attempts := by
  intro rs
  induction rs with
  | nil => intro st _; rfl
  | cons r rest ih =>
    intro st h
    by_cases hcap : MAX_EMAILS_PER_SESSION ≤ st.totalSent
    · have hc0 : countEligible already (r :: rest) = 0 := by omega
      rw [expectedLog_eq_nil _ _ _ _ hc0]
      simp [sendLoop, hcap]
    · by_cases hmem : already.contains r.email = true
      · have hm : r.email ∈ already := by simpa using hmem
        rw [countEligible_cons_mem _ _ _ hmem] at h
        simp [sendLoop, hcap, hm, expectedLog]
        exact ih _ h
      · rw [Bool.not_eq_true] at hmem
        have hm : r.email ∉ already := by simpa using hmem
        rw [countEligible_cons_not_mem _ _ _ hmem] at h
        rcases hs : sres st.attempts with _ | err
        · by_cases hb : st.batchSize ≤ st.emailCounter + 1
          · simp [sendLoop, hcap, hm, hs, hb, expectedLog]
            exact ih _ (by show st.totalSent + 1 + countEligible already rest ≤
              MAX_EMAILS_PER_SESSION; omega)
          · simp [sendLoop, hcap, hm, hs, hb, expectedLog]
            exact ih _ (by show st.totalSent + 1 + countEligible already rest ≤
              MAX_EMAILS_PER_SESSION; omega)
        · by_cases hb : st.batchSize ≤ st.emailCounter + 1
          · simp [sendLoop, hcap, hm, hs, hb, expectedLog]
            exact ih _ (by show st.totalSent + countEligible already rest ≤
              MAX_EMAILS_PER_SESSION; omega)
          · simp [sendLoop, hcap, hm, hs, hb, expectedLog]
            exact ih _ (by show st.totalSent + countEligible already rest ≤
              MAX_EMAILS_PER_SESSION; omega)

/-- `total_sent` grows by exactly the number of Success entries this loop
run appends to the log. -/
theorem sendLoop_totalSent (sres : Nat → Option String) (already : List String) :
    ∀ (rs : List Recipient) (st : LoopState),
      (sendLoop sres already rs st).st.totalSent =
        st.totalSent +
          ((sendLoop sres already rs st).log.filter
            (fun e => e.status == "Success")).length := by
  intro rs
  induction rs with
  | nil => intro st; rfl
  | cons r rest ih =>
    intro st
    by_cases hcap : MAX_EMAILS_PER_SESSION ≤ st.totalSent
    · simp [sendLoop, hcap]
    · by_cases hmem : already.contains r.email = true
      · have hm : r.email ∈ already := by simpa using hmem
        simp [sendLoop, hcap, hm]
        exact ih _
      · have hm : r.email ∉ already := by
          simpa using (Bool.not_eq_true _).mp hmem
        rcases hs : sres st.attempts with _ | err <;>
          by_cases hb : st.batchSize ≤ st.emailCounter + 1 <;>
          simp [sendLoop, hcap, hm, hs, hb, List.filter_cons, ih] <;> omega

/-- The loop never pushes `total_sent` above the session cap. -/
theorem sendLoop_cap (sres : Nat → Option String) (already : List String) :
    ∀ (rs : List Recipient) (st : LoopState),
      st.totalSent ≤ MAX_EMAILS_PER_SESSION →
      (sendLoop sres already rs st).st.totalSent ≤ MAX_EMAILS_PER_SESSION := by
  intro rs
  induction rs with
  | nil => intro st h; exact h
  | cons r rest ih =>
    intro st h
    by_cases hcap : MAX_EMAILS_PER_SESSION ≤ st.totalSent
    · simpa [sendLoop, hcap] using h
    · by_cases hmem : already.contains r.email = true
      · have hm : r.email ∈ already := by simpa using hmem
        simp [sendLoop, hcap, hm]
        exact ih _ h
      · have hm : r.email ∉ already := by
          simpa using (Bool.not_eq_true _).mp hmem
        rcases hs : sres st.attempts with _ | err
        · by_cases hb : st.batchSize ≤ st.emailCounter + 1
          · simp [sendLoop, hcap, hm, hs, hb]
            exact ih _ (by
              show st.totalSent + 1 ≤ MAX_EMAILS_PER_SESSION
              omega)
          · simp [sendLoop, hcap, hm, hs, hb]
            exact ih _ (by
              show st.totalSent + 1 ≤ MAX_EMAILS_PER_SESSION
              omega)
        · by_cases hb : st.batchSize ≤ st.emailCounter + 1
          · simp [sendLoop, hcap, hm, hs, hb]
            exact ih _ (by show st.totalSent ≤ MAX_EMAILS_PER_SESSION; omega)
          · simp [sendLoop, hcap, hm, hs, hb]
            exact ih _ (by show st.totalSent ≤ MAX_EMAILS_PER_SESSION; omega)

/-- When every `sendmail` call succeeds, the loop attempts
`min (eligible) (cap - total_sent)` recipients. -/
theorem sendLoop_allOk_length (already : List String) :
    ∀ (rs : List Recipient) (st : LoopState),
      (sendLoop (fun _ => none) already rs st).log.length =
        min (countEligible already rs) (MAX_EMAILS_PER_SESSION - st.totalSent) := by
  intro rs
  induction rs with
  | nil => intro st; simp [sendLoop, countEligible, eligible]
  | cons r rest ih =>
    intro st
    by_cases hcap : MAX_EMAILS_PER_SESSION ≤ st.totalSent
    · have hz : MAX_EMAILS_PER_SESSION - st.totalSent = 0 := by omega
      simp [sendLoop, hcap, hz]
    · by_cases hmem : already.contains r.email = true
      · have hm : r.email ∈ already := by simpa using hmem
        rw [countEligible_cons_mem _ _ _ hmem]
        simp [sendLoop, hcap, hm, ih]
      · have hmf : already.contains r.email = false := (Bool.not_eq_true _).mp hmem
        have hm : r.email ∉ already := by simpa using hmf
        rw [countEligible_cons_not_mem _ _ _ hmf]
        by_cases hb : st.batchSize ≤ st.emailCounter + 1
        · simp [sendLoop, hcap, hm, hb, ih]
          omega
        · simp [sendLoop, hcap, hm, hb, ih]
          omega

/-- Every email the loop logs is the email of some processed recipient. -/
theorem sendLoop_log_email_mem (sres : Nat → Option String) (already : List String) :
    ∀ (rs : List Recipient) (st : LoopState) (en : LogEntry),
      en ∈ (sendLoop sres already rs st).log → en.email ∈ rs.map Recipient.email := by
  intro rs
  induction rs with
  | nil => intro st en h; simp [sendLoop] at h
  | cons r rest ih =>
    intro st en h
    by_cases hcap : MAX_EMAILS_PER_SESSION ≤ st.totalSent
    · simp [sendLoop, hcap] at h
    · by_cases hmem : already.contains r.email = true
      · have hm : r.email ∈ already := by simpa using hmem
        simp [sendLoop, hcap, hm] at h
        simp only [List.map_cons, List.mem_cons]
        exact Or.inr (ih _ en h)
      · have hm : r.email ∉ already := by
          simpa using (Bool.not_eq_true _).mp hmem
        simp only [List.map_cons, List.mem_cons]
        rcases hs : sres st.attempts with _ | err
        · by_cases hb : st.batchSize ≤ st.emailCounter + 1
          · simp [sendLoop, hcap, hm, hs, hb] at h
            rcases h with h | h
            · left; rw [h]
            · exact Or.inr (ih _ en h)
          · simp [sendLoop, hcap, hm, hs, hb] at h
            rcases h with h | h
            · left; rw [h]
            · exact Or.inr (ih _ en h)
        · by_cases hb : st.batchSize ≤ st.emailCounter + 1
          · simp [sendLoop, hcap, hm, hs, hb] at h
            rcases h with h | h
            · left; rw [h]
            · exact Or.inr (ih _ en h)
          · simp [sendLoop, hcap, hm, hs, hb] at h
            rcases h with h | h
            · left; rw [h]
            · exact Or.inr (ih _ en h)

/-- The loop's event trace obeys the pacing discipline whenever it is
entered with a batch size in [3, 7] and a counter below it. -/
theorem sendLoop_paced (sres : Nat → Option String) (already : List String) :
    ∀ (rs : List Recipient) (st : LoopState),
      st.emailCounter < st.batchSize → 3 ≤ st.batchSize → st.batchSize ≤ 7 →
      Paced st.emailCounter st.batchSize (sendLoop sres already rs st).events := by
  intro rs
  induction rs with
  | nil => intro st _ _ _; exact Paced.nil _ _
  | cons r rest ih =>
    intro st hc h3 h7
    by_cases hcap : MAX_EMAILS_PER_SESSION ≤ st.totalSent
    · simp only [sendLoop, hcap, if_true, ite_true]
      exact Paced.nil _ _
    · by_cases hmem : already.contains r.email = true
      · have hm : r.email ∈ already := by simpa using hmem
        simp [sendLoop, hcap, hm]
        exact Paced.skip _ _ _ _
          (ih (LoopState.mk st.emailCounter st.batchSize st.totalSent
            (st.totalSkipped + 1) st.attempts st.rng) hc h3 h7)
      · have hm : r.email ∉ already := by
          simpa using (Bool.not_eq_true _).mp hmem
        rcases hs : sres st.attempts with _ | err
        · by_cases hb : st.batchSize ≤ st.emailCounter + 1
          · simp [sendLoop, hcap, hm, hs, hb]
            exact Paced.sentPause _ _ _ _ _ _ _
              (le_uniformVal 2 12 _) (uniformVal_le 2 12 _ (by norm_num)) hb
              (le_randintVal 30 90 _) (randintVal_le 30 90 _ (by norm_num))
              (le_randintVal 3 7 _) (randintVal_le 3 7 _ (by norm_num))
              (ih (LoopState.mk 0 (randintVal 3 7 (nextI (nextF st.rng)))
                  (st.totalSent + 1) st.totalSkipped (st.attempts + 1)
                  (nextI (nextI (nextF st.rng))))
                (by
                  show 0 < randintVal 3 7 (nextI (nextF st.rng))
                  have := le_randintVal 3 7 (nextI (nextF st.rng))
                  omega)
                (le_randintVal 3 7 _) (randintVal_le 3 7 _ (by norm_num)))
          · simp [sendLoop, hcap, hm, hs, hb]
            exact Paced.sentCont _ _ _ _ _
              (le_uniformVal 2 12 _) (uniformVal_le 2 12 _ (by norm_num))
              (by omega)
              (ih (LoopState.mk (st.emailCounter + 1) st.batchSize
                  (st.totalSent + 1) st.totalSkipped (st.attempts + 1) (nextF st.rng))
                (by show st.emailCounter + 1 < st.batchSize; omega) h3 h7)
        · by_cases hb : st.batchSize ≤ st.emailCounter + 1
          · simp [sendLoop, hcap, hm, hs, hb]
            exact Paced.failPause _ _ _ _ _ _ _
              (le_uniformVal 2 12 _) (uniformVal_le 2 12 _ (by norm_num)) hb
              (le_randintVal 30 90 _) (randintVal_le 30 90 _ (by norm_num))
              (le_randintVal 3 7 _) (randintVal_le 3 7 _ (by norm_num))
              (ih (LoopState.mk 0 (randintVal 3 7 (nextI (nextF st.rng)))
                  st.totalSent st.totalSkipped (st.attempts + 1)
                  (nextI (nextI (nextF st.rng))))
                (by
                  show 0 < randintVal 3 7 (nextI (nextF st.rng))
                  have := le_randintVal 3 7 (nextI (nextF st.rng))
                  omega)
                (le_randintVal 3 7 _) (randintVal_le 3 7 _ (by norm_num)))
          · simp [sendLoop, hcap, hm, hs, hb]
            exact Paced.failCont _ _ _ _ _
              (le_uniformVal 2 12 _) (uniformVal_le 2 12 _ (by norm_num))
              (by omega)
              (ih (LoopState.mk (st.emailCounter + 1) st.batchSize
                  st.totalSent st.totalSkipped (st.attempts + 1) (nextF st.rng))
                (by show st.emailCounter + 1 < st.batchSize; omega) h3 h7)

/-- Every abort path of `send_emails` (missing resume or recipients file, no
valid recipient, unreadable resume, failed SMTP session) returns the same
result: nothing logged, no events, ledger file untouched, no final state. -/
theorem send_emails_aborted (s : Setup) (rng : Rng) (sres : Nat → Option String)
    (h : s.resumeExists = false ∨ s.recipientsExists = false ∨
      (loadRecipients s).isEmpty = true ∨ s.resumeReadOk = false ∨
      s.smtpOk = false) :
    send_emails s rng sres = RunResult.mk [] [] s.ledgerFile none := by
  rcases h with h | h | h | h | h
  · simp [send_emails, h]
  · simp [send_emails, h]
  · by_cases hab : (s.resumeExists && s.recipientsExists) = true <;>
      simp [send_emails, hab, h]
  · by_cases hab : (s.resumeExists && s.recipientsExists) = true <;>
      by_cases he : (loadRecipients s).isEmpty = true <;>
      simp [send_emails, hab, he, h]
  · by_cases hab : (s.resumeExists && s.recipientsExists) = true <;>
      by_cases he : (loadRecipients s).isEmpty = true <;>
      by_cases hro : s.resumeReadOk = true <;>
      simp [send_emails, hab, he, hro, h]

/-- With all setup steps fine, `send_emails` runs the loop on the validated
recipients against the ledger email set and rewrites the ledger with the
run's successes. -/
theorem send_emails_completed (s : Setup) (rng : Rng) (sres : Nat → Option String)
    (h1 : s.resumeExists = true) (h2 : s.recipientsExists = true)
    (he : (loadRecipients s).isEmpty = false) (h3 : s.resumeReadOk = true)
    (h4 : s.smtpOk = true) :
    send_emails s rng sres =
      RunResult.mk
        (sendLoop sres (loadSentLog s) (loadRecipients s) (initState rng)).log
        (sendLoop sres (loadSentLog s) (loadRecipients s) (initState rng)).events
        (some (update_sent_log s.ledgerFile
          (sendLoop sres (loadSentLog s) (loadRecipients s) (initState rng)).log))
        (some (sendLoop sres (loadSentLog s) (loadRecipients s) (initState rng)).st) := by
  simp [send_emails, h1, h2, he, h3, h4]

/-- A run that reaches the loop (its result has a final state) passed every
setup step. -/
theorem send_emails_flags_of_completed (s : Setup) (rng : Rng)
    (sres : Nat → Option String)
    (h : (send_emails s rng sres).finalState.isSome = true) :
    s.resumeExists = true ∧ s.recipientsExists = true ∧
      (loadRecipients s).isEmpty = false ∧ s.resumeReadOk = true ∧
      s.smtpOk = true := by
  refine ⟨?_, ?_, ?_, ?_, ?_⟩
  · by_cases hx : s.resumeExists = true
    · exact hx
    · rw [send_emails_aborted s rng sres (Or.inl ((Bool.not_eq_true _).mp hx))] at h
      simp at h
  · by_cases hx : s.recipientsExists = true
    · exact hx
    · rw [send_emails_aborted s rng sres
        (Or.inr (Or.inl ((Bool.not_eq_true _).mp hx)))] at h
      simp at h
  · by_cases hx : (loadRecipients s).isEmpty = true
    · rw [send_emails_aborted s rng sres (Or.inr (Or.inr (Or.inl hx)))] at h
      simp at h
    · exact (Bool.not_eq_true _).mp hx
  · by_cases hx : s.resumeReadOk = true
    · exact hx
    · rw [send_emails_aborted s rng sres
        (Or.inr (Or.inr (Or.inr (Or.inl ((Bool.not_eq_true _).mp hx)))))] at h
      simp at h
  · by_cases hx : s.smtpOk = true
    · exact hx
    · rw [send_emails_aborted s rng sres
        (Or.inr (Or.inr (Or.inr (Or.inr ((Bool.not_eq_true _).mp hx)))))] at h
      simp at h

/-! ## Claim theorems for the mailer -/

/-- C4: Every completed run rewrites the ledger file to exactly the union
(concatenation) of its previous entries and this run's Success entries, and
every ledger entry is either an old one or has status Success — no Failed
entry of this run is ever written. -/
theorem C4_ledger_only_success (s : Setup) (rng : Rng) (sres : Nat → Option String)
    (h : (send_emails s rng sres).finalState.isSome = true) :
    (send_emails s rng sres).ledgerAfter =
      some (ledgerRows s.ledgerFile ++
        (send_emails s rng sres).log.filter (fun e => e.status == "Success")) ∧
    ∀ en ∈ ledgerRows (send_emails s rng sres).ledgerAfter,
      en ∈ ledgerRows s.ledgerFile ∨ en.status = "Success" := by
  obtain ⟨h1, h2, he, h3, h4⟩ := send_emails_flags_of_completed s rng sres h
  rw [send_emails_completed s rng sres h1 h2 he h3 h4]
  constructor
  · cases hl : s.ledgerFile with
    | none => simp [update_sent_log, ledgerRows]
    | some rows => simp [update_sent_log, ledgerRows]
  · intro en hen
    cases hl : s.ledgerFile with
    | none =>
      rw [hl] at hen
      simp only [update_sent_log, ledgerRows, Option.getD_some] at hen
      right
      have := List.of_mem_filter hen
      simpa using this
    | some rows =>
      rw [hl] at hen
      simp only [update_sent_log, ledgerRows, Option.getD_some,
        List.mem_append] at hen
      rcases hen with hen | hen
      · left
        simpa [ledgerRows, hl] using hen
      · right
        have := List.of_mem_filter hen
        simpa using this

/-- Witness for C4: a concrete completed run over one recipient with no
previous ledger file. -/
theorem C4_witness :
    (send_emails oneS rng0 allOk).finalState.isSome = true ∧
    ((send_emails oneS rng0 allOk).ledgerAfter =
      some (ledgerRows oneS.ledgerFile ++
        (send_emails oneS rng0 allOk).log.filter (fun e => e.status == "Success")) ∧
    ∀ en ∈ ledgerRows (send_emails oneS rng0 allOk).ledgerAfter,
      en ∈ ledgerRows oneS.ledgerFile ∨ en.status = "Success") :=
  ⟨by decide, C4_ledger_only_success oneS rng0 allOk (by decide)⟩

/-- C8: Every run's event trace follows the pacing discipline: each
processed message is followed by one `uniform(2, 12)` delay in [2, 12];
after every `K` consecutive processed messages a `randint(30, 90)` pause in
[30, 90] is inserted, with `K` in [3, 7] drawn at loop entry and re-drawn
after each pause; skips insert nothing. -/
theorem C8_pacing (s : Setup) (rng : Rng) (sres : Nat → Option String) :
    ∃ b0, 3 ≤ b0 ∧ b0 ≤ 7 ∧ Paced 0 b0 (send_emails s rng sres).events := by
  by_cases h1 : s.resumeExists = true
  · by_cases h2 : s.recipientsExists = true
    · by_cases he : (loadRecipients s).isEmpty = true
      · rw [send_emails_aborted s rng sres (Or.inr (Or.inr (Or.inl he)))]
        exact ⟨3, by norm_num, by norm_num, Paced.nil _ _⟩
      · by_cases h3 : s.resumeReadOk = true
        · by_cases h4 : s.smtpOk = true
          · rw [send_emails_completed s rng sres h1 h2
              ((Bool.not_eq_true _).mp he) h3 h4]
            refine ⟨randintVal 3 7 rng, le_randintVal 3 7 rng,
              randintVal_le 3 7 rng (by norm_num), ?_⟩
            have hp := sendLoop_paced sres (loadSentLog s) (loadRecipients s)
              (initState rng)
              (by
                show 0 < randintVal 3 7 rng
                have := le_randintVal 3 7 rng
                omega)
              (le_randintVal 3 7 rng) (randintVal_le 3 7 rng (by norm_num))
            exact hp
          · rw [send_emails_aborted s rng sres
              (Or.inr (Or.inr (Or.inr (Or.inr ((Bool.not_eq_true _).mp h4)))))]
            exact ⟨3, by norm_num, by norm_num, Paced.nil _ _⟩
        · rw [send_emails_aborted s rng sres
            (Or.inr (Or.inr (Or.inr (Or.inl ((Bool.not_eq_true _).mp h3)))))]
          exact ⟨3, by norm_num, by norm_num, Paced.nil _ _⟩
    · rw [send_emails_aborted s rng sres
        (Or.inr (Or.inl ((Bool.not_eq_true _).mp h2)))]
      exact ⟨3, by norm_num, by norm_num, Paced.nil _ _⟩
  · rw [send_emails_aborted s rng sres (Or.inl ((Bool.not_eq_true _).mp h1))]
    exact ⟨3, by norm_num, by norm_num, Paced.nil _ _⟩

/-- C10: A recipient whose email is already in the ledger (reached while the
cap has not triggered) is skipped with no sleep event, no batch-counter or
cap progress, and no log entry: the run continues on the rest with only
`total_skipped` incremented. -/
theorem C10_skip_frame (sres : Nat → Option String) (already : List String)
    (r : Recipient) (rest : List Recipient) (st : LoopState)
    (hmem : already.contains r.email = true)
    (hcap : st.totalSent < MAX_EMAILS_PER_SESSION) :
    sendLoop sres already (r :: rest) st =
      LoopOut.mk
        (sendLoop sres already rest
          (LoopState.mk st.emailCounter st.batchSize st.totalSent
            (st.totalSkipped + 1) st.attempts st.rng)).st
        (sendLoop sres already rest
          (LoopState.mk st.emailCounter st.batchSize st.totalSent
            (st.totalSkipped + 1) st.attempts st.rng)).log
        (Event.skipped r.email ::
          (sendLoop sres already rest
            (LoopState.mk st.emailCounter st.batchSize st.totalSent
              (st.totalSkipped + 1) st.attempts st.rng)).events) := by
  have hm : r.email ∈ already := by simpa using hmem
  have hnc : ¬ MAX_EMAILS_PER_SESSION ≤ st.totalSent := by omega
  simp [sendLoop, hnc, hm]

/-- Witness for C10: a concrete skip of an already-sent recipient. -/
theorem C10_witness :
    (["a@b.co"].contains oneRecipient.email = true ∧
      (initState rng0).totalSent < MAX_EMAILS_PER_SESSION) ∧
    sendLoop allOk ["a@b.co"] [oneRecipient] (initState rng0) =
      LoopOut.mk
        (sendLoop allOk ["a@b.co"] []
          (LoopState.mk (initState rng0).emailCounter (initState rng0).batchSize
            (initState rng0).totalSent ((initState rng0).totalSkipped + 1)
            (initState rng0).attempts (initState rng0).rng)).st
        (sendLoop allOk ["a@b.co"] []
          (LoopState.mk (initState rng0).emailCounter (initState rng0).batchSize
            (initState rng0).totalSent ((initState rng0).totalSkipped + 1)
            (initState rng0).attempts (initState rng0).rng)).log
        (Event.skipped oneRecipient.email ::
          (sendLoop allOk ["a@b.co"] []
            (LoopState.mk (initState rng0).emailCounter (initState rng0).batchSize
              (initState rng0).totalSent ((initState rng0).totalSkipped + 1)
              (initState rng0).attempts (initState rng0).rng)).events) :=
  ⟨⟨by decide, by decide⟩,
   C10_skip_frame allOk ["a@b.co"] oneRecipient [] (initState rng0)
     (by decide) (by decide)⟩

/-- C6: A recipient email that fails the address-format regex is never
attempted (it never appears in the run's log, having been dropped by
`load_recipients` before the loop) and is never added to the ledger: it can
only occur in the ledger afterwards if it was already there before. -/
theorem C6_invalid_never_attempted (s : Setup) (rng : Rng) (sres : Nat → Option String)
    (e : String) (hinv : is_valid_email e = false) :
    e ∉ (send_emails s rng sres).log.map LogEntry.email ∧
      (e ∈ ledgerEmails (send_emails s rng sres).ledgerAfter →
        e ∈ ledgerEmails s.ledgerFile) := by
  have habort : send_emails s rng sres = RunResult.mk [] [] s.ledgerFile none →
      e ∉ (send_emails s rng sres).log.map LogEntry.email ∧
      (e ∈ ledgerEmails (send_emails s rng sres).ledgerAfter →
        e ∈ ledgerEmails s.ledgerFile) := by
    intro hres
    rw [hres]
    exact ⟨by simp, fun hx => hx⟩
  by_cases h1 : s.resumeExists = true
  · by_cases h2 : s.recipientsExists = true
    · by_cases he : (loadRecipients s).isEmpty = true
      · exact habort (send_emails_aborted s rng sres (Or.inr (Or.inr (Or.inl he))))
      · by_cases h3 : s.resumeReadOk = true
        · by_cases h4 : s.smtpOk = true
          · rw [send_emails_completed s rng sres h1 h2
              ((Bool.not_eq_true _).mp he) h3 h4]
            have hnot : ∀ en, en ∈ (sendLoop sres (loadSentLog s)
                (loadRecipients s) (initState rng)).log → en.email ≠ e := by
              intro en hen hee
              have h5 := sendLoop_log_email_mem sres (loadSentLog s)
                (loadRecipients s) (initState rng) en hen
              rw [hee] at h5
              by_cases hcsv : s.csvOk = true
              · simp only [loadRecipients, hcsv, if_true, ite_true] at h5
                simp only [List.mem_map] at h5
                obtain ⟨r2, hr2, hre⟩ := h5
                have hval := List.of_mem_filter hr2
                rw [hre] at hval
                rw [hinv] at hval
                exact absurd hval (by simp)
              · simp [loadRecipients, hcsv] at h5
            constructor
            · intro hmem
              simp only [List.mem_map] at hmem
              obtain ⟨en, hen, hee⟩ := hmem
              exact hnot en hen hee
            · intro hled
              simp only [ledgerEmails, ledgerRows, Option.getD_some] at hled
              cases hl : s.ledgerFile with
              | none =>
                rw [hl] at hled
                simp only [update_sent_log, List.mem_map] at hled
                obtain ⟨en, henf, hee⟩ := hled
                exact absurd hee (hnot en (List.mem_of_mem_filter henf))
              | some rows =>
                rw [hl] at hled
                simp only [update_sent_log, List.map_append, List.mem_append,
                  List.mem_map] at hled
                rcases hled with hled | hled
                · simpa [ledgerEmails, ledgerRows, hl] using hled
                · obtain ⟨en, henf, hee⟩ := hled
                  exact absurd hee (hnot en (List.mem_of_mem_filter henf))
          · exact habort (send_emails_aborted s rng sres
              (Or.inr (Or.inr (Or.inr (Or.inr ((Bool.not_eq_true _).mp h4))))))
        · exact habort (send_emails_aborted s rng sres
            (Or.inr (Or.inr (Or.inr (Or.inl ((Bool.not_eq_true _).mp h3))))))
    · exact habort (send_emails_aborted s rng sres
        (Or.inr (Or.inl ((Bool.not_eq_true _).mp h2))))
  · exact habort (send_emails_aborted s rng sres
      (Or.inl ((Bool.not_eq_true _).mp h1)))

/-- Witness for C6: the invalid address `not-an-email` in a concrete run
with a mixed recipients CSV. -/
theorem C6_witness :
    is_valid_email "not-an-email" = false ∧
    ("not-an-email" ∉ (send_emails mixedS rng0 allOk).log.map LogEntry.email ∧
      ("not-an-email" ∈ ledgerEmails (send_emails mixedS rng0 allOk).ledgerAfter →
        "not-an-email" ∈ ledgerEmails mixedS.ledgerFile)) :=
  ⟨by decide, C6_invalid_never_attempted mixedS rng0 allOk "not-an-email" (by decide)⟩

/-- C7 (amended): a failed `sendmail` call is recorded with status Failed
and the loop continues with the remaining recipients from a state whose
success count is unchanged; an SMTP (authentication) failure, a missing
recipients or resume file, or an unreadable resume aborts the whole run with
nothing attempted and the ledger untouched.  (A missing ledger file does
not abort — see the counterexample.) -/
theorem C7_failure_handling (sres : Nat → Option String) (already : List String)
    (r : Recipient) (rest : List Recipient) (st : LoopState) (msg : String)
    (hcap : st.totalSent < MAX_EMAILS_PER_SESSION)
    (hmem : already.contains r.email = false)
    (hfail : sres st.attempts = some msg) :
    (∃ st2 : LoopState, st2.totalSent = st.totalSent ∧
      (sendLoop sres already (r :: rest) st).log =
        LogEntry.mk r.email "Failed" msg :: (sendLoop sres already rest st2).log ∧
      (sendLoop sres already (r :: rest) st).st = (sendLoop sres already rest st2).st) ∧
    ∀ (s2 : Setup) (rng2 : Rng) (sres2 : Nat → Option String),
      (s2.smtpOk = false ∨ s2.resumeExists = false ∨ s2.recipientsExists = false ∨
        s2.resumeReadOk = false) →
      send_emails s2 rng2 sres2 = RunResult.mk [] [] s2.ledgerFile none := by
  constructor
  · have hm : r.email ∉ already := by simpa using hmem
    have hnc : ¬ MAX_EMAILS_PER_SESSION ≤ st.totalSent := by omega
    by_cases hb : st.batchSize ≤ st.emailCounter + 1
    · refine ⟨LoopState.mk 0 (randintVal 3 7 (nextI (nextF st.rng))) st.totalSent
        st.totalSkipped (st.attempts + 1) (nextI (nextI (nextF st.rng))), rfl, ?_, ?_⟩ <;>
        simp [sendLoop, hnc, hm, hfail, hb]
    · refine ⟨LoopState.mk (st.emailCounter + 1) st.batchSize st.totalSent
        st.totalSkipped (st.attempts + 1) (nextF st.rng), rfl, ?_, ?_⟩ <;>
        simp [sendLoop, hnc, hm, hfail, hb]
  · intro s2 rng2 sres2 hds
    rcases hds with h | h | h | h
    · exact send_emails_aborted _ _ _ (Or.inr (Or.inr (Or.inr (Or.inr h))))
    · exact send_emails_aborted _ _ _ (Or.inl h)
    · exact send_emails_aborted _ _ _ (Or.inr (Or.inl h))
    · exact send_emails_aborted _ _ _ (Or.inr (Or.inr (Or.inr (Or.inl h))))

/-- Counterexample for C7 as stated: a missing ledger file is not a fatal
missing input.  With no ledger file present the run proceeds, attempts the
one recipient and completes, rather than aborting with no sends. -/
theorem C7_counterexample :
    oneS.ledgerFile = none ∧
    (send_emails oneS rng0 allOk).log = [LogEntry.mk "a@b.co" "Success" ""] ∧
    (send_emails oneS rng0 allOk).finalState.isSome = true := by
  refine ⟨rfl, ?_, ?_⟩ <;> decide

/-- Witness for C7 at a concrete failing send. -/
theorem C7_witness :
    ((initState rng0).totalSent < MAX_EMAILS_PER_SESSION ∧
      (["x@y.co"].contains oneRecipient.email = false) ∧
      allFail (initState rng0).attempts = some "rejected") ∧
    ((∃ st2 : LoopState, st2.totalSent = (initState rng0).totalSent ∧
      (sendLoop allFail ["x@y.co"] [oneRecipient] (initState rng0)).log =
        LogEntry.mk oneRecipient.email "Failed" "rejected" ::
          (sendLoop allFail ["x@y.co"] [] st2).log ∧
      (sendLoop allFail ["x@y.co"] [oneRecipient] (initState rng0)).st =
        (sendLoop allFail ["x@y.co"] [] st2).st) ∧
    ∀ (s2 : Setup) (rng2 : Rng) (sres2 : Nat → Option String),
      (s2.smtpOk = false ∨ s2.resumeExists = false ∨ s2.recipientsExists = false ∨
        s2.resumeReadOk = false) →
      send_emails s2 rng2 sres2 = RunResult.mk [] [] s2.ledgerFile none) :=
  ⟨⟨by decide, by decide, rfl⟩,
   C7_failure_handling allFail ["x@y.co"] oneRecipient [] (initState rng0) "rejected"
     (by decide) (by decide) rfl⟩

/-- C2 (amended): the session cap counts successful sends.  With more than
50 eligible recipients and every attempted send succeeding, exactly 50 sends
are attempted and the rest are not processed; in general the number of
Success entries of a run never exceeds 50 (the run hard-stops once 50
successful sends have occurred), but failed attempts do not count toward
the cap. -/
theorem C2_cap_on_successes (s : Setup) (rng : Rng)
    (h1 : s.resumeExists = true) (h2 : s.recipientsExists = true)
    (h3 : s.resumeReadOk = true) (h4 : s.smtpOk = true)
    (hcap : MAX_EMAILS_PER_SESSION <
      countEligible (loadSentLog s) (loadRecipients s)) :
    (send_emails s rng (fun _ => none)).log.length = MAX_EMAILS_PER_SESSION ∧
    ∀ sres : Nat → Option String,
      ((send_emails s rng sres).log.filter
        (fun e => e.status == "Success")).length ≤ MAX_EMAILS_PER_SESSION := by
  have he : (loadRecipients s).isEmpty = false := by
    rcases hr : loadRecipients s with _ | ⟨a, l⟩
    · rw [hr] at hcap
      simp [countEligible, eligible] at hcap
    · rfl
  constructor
  · rw [send_emails_completed s rng _ h1 h2 he h3 h4]
    rw [sendLoop_allOk_length]
    have h0 : (initState rng).totalSent = 0 := rfl
    rw [h0]
    omega
  · intro sres
    have hlog : (send_emails s rng sres).log =
        (sendLoop sres (loadSentLog s) (loadRecipients s) (initState rng)).log := by
      rw [send_emails_completed s rng sres h1 h2 he h3 h4]
    rw [hlog]
    have hts := sendLoop_totalSent sres (loadSentLog s) (loadRecipients s)
      (initState rng)
    have hle := sendLoop_cap sres (loadSentLog s) (loadRecipients s)
      (initState rng) (by
        show (initState rng).totalSent ≤ MAX_EMAILS_PER_SESSION
        have h0 : (initState rng).totalSent = 0 := rfl
        omega)
    have h0 : (initState rng).totalSent = 0 := rfl
    rw [h0] at hts
    omega

/-- Counterexample for C2 as stated: 51 eligible recipients, every send
attempt fails.  The claim says exactly 50 sends are attempted; the run
attempts all 51 (the cap `total_sent >= 50` counts only successes, which
never occur here). -/
theorem C2_counterexample :
    MAX_EMAILS_PER_SESSION < countEligible (loadSentLog cexS) (loadRecipients cexS) ∧
    ¬ ((send_emails cexS rng0 allFail).log.length = MAX_EMAILS_PER_SESSION) := by
  constructor <;> decide

/-- Witness for C2 at the concrete 51-recipient setup. -/
theorem C2_witness :
    (cexS.resumeExists = true ∧ cexS.recipientsExists = true ∧
      cexS.resumeReadOk = true ∧ cexS.smtpOk = true ∧
      MAX_EMAILS_PER_SESSION <
        countEligible (loadSentLog cexS) (loadRecipients cexS)) ∧
    ((send_emails cexS rng0 (fun _ => none)).log.length = MAX_EMAILS_PER_SESSION ∧
    ∀ sres : Nat → Option String,
      ((send_emails cexS rng0 sres).log.filter
        (fun e => e.status == "Success")).length ≤ MAX_EMAILS_PER_SESSION) :=
  ⟨⟨rfl, rfl, rfl, rfl, by decide⟩,
   C2_cap_on_successes cexS rng0 rfl rfl rfl rfl (by decide)⟩

/-- C1 (amended): re-running the mailer on the same recipient list against
the ledger L a prior completed run produced attempts a send to exactly the
(valid-format) recipients whose email is not in L — provided at most 50 of
them are eligible, since the session cap stops the run after 50 successful
sends — and the resulting ledger is L extended by exactly the entries of
this run whose send succeeded. -/
theorem C1_rerun_dedup (s : Setup) (rng1 rng2 : Rng)
    (sres1 sres2 : Nat → Option String) (L : Option (List LogEntry))
    (hprev : (send_emails s rng1 sres1).finalState.isSome = true)
    (hL : L = (send_emails s rng1 sres1).ledgerAfter)
    (hread : s.ledgerReadOk = true)
    (hcap : countEligible (ledgerEmails L) (loadRecipients s) ≤
      MAX_EMAILS_PER_SESSION) :
    ((send_emails { s with ledgerFile := L } rng2 sres2).log.map LogEntry.email =
      eligibleEmails (ledgerEmails L) (loadRecipients s)) ∧
    (send_emails { s with ledgerFile := L } rng2 sres2).ledgerAfter =
      some (ledgerRows L ++
        (send_emails { s with ledgerFile := L } rng2 sres2).log.filter
          (fun e => e.status == "Success")) := by
  obtain ⟨h1, h2, he, h3, h4⟩ := send_emails_flags_of_completed s rng1 sres1 hprev
  have hLrows : ∃ rows, L = some rows := by
    rw [hL, send_emails_completed s rng1 sres1 h1 h2 he h3 h4]
    exact ⟨_, rfl⟩
  obtain ⟨rows, hLr⟩ := hLrows
  subst hLr
  have hs2rec : loadRecipients { s with ledgerFile := some rows } = loadRecipients s := by
    simp [loadRecipients]
  have hs2log : loadSentLog { s with ledgerFile := some rows } =
      rows.map LogEntry.email := by
    simp [loadSentLog, hread]
  have hle : ledgerEmails (some rows) = rows.map LogEntry.email := by
    simp [ledgerEmails, ledgerRows]
  have hcomp2 := send_emails_completed { s with ledgerFile := some rows } rng2 sres2
    h1 h2 (by rw [hs2rec]; exact he) h3 h4
  have hlog : (send_emails { s with ledgerFile := some rows } rng2 sres2).log =
      (sendLoop sres2 (rows.map LogEntry.email) (loadRecipients s)
        (initState rng2)).log := by
    rw [hcomp2, hs2rec, hs2log]
  have hled : (send_emails { s with ledgerFile := some rows } rng2 sres2).ledgerAfter =
      some (update_sent_log (some rows)
        (sendLoop sres2 (rows.map LogEntry.email) (loadRecipients s)
          (initState rng2)).log) := by
    rw [hcomp2, hs2rec, hs2log]
  constructor
  · rw [hlog]
    rw [sendLoop_log_eq sres2 (rows.map LogEntry.email) (loadRecipients s)
      (initState rng2)
      (by
        show (initState rng2).totalSent + _ ≤ MAX_EMAILS_PER_SESSION
        have h0 : (initState rng2).totalSent = 0 := rfl
        rw [hle] at hcap
        omega)]
    rw [expectedLog_map_email, hle]
  · rw [hled, hlog]
    simp [update_sent_log, ledgerRows]

/-- Counterexample for C1 as stated (without the ≤ 50 eligible proviso):
51 fresh recipients; a prior completed run in which every send failed
leaves the empty ledger; the re-run with every send succeeding attempts
only 50 of the 51 not-in-ledger recipients. -/
theorem C1_counterexample :
    ((send_emails cexS rng0 allFail).finalState.isSome = true ∧
      (send_emails cexS rng0 allFail).ledgerAfter = some []) ∧
    ¬ ((send_emails cexS2 rng0 allOk).log.map LogEntry.email =
        eligibleEmails (ledgerEmails (some [])) (loadRecipients cexS2)) := by
  refine ⟨⟨?_, ?_⟩, ?_⟩ <;> decide

/-- Witness for C1: one recipient, prior successful run, re-run skips it and
leaves the ledger unchanged. -/
theorem C1_witness :
    ((send_emails oneS rng0 allOk).finalState.isSome = true ∧
      some [LogEntry.mk "a@b.co" "Success" ""] =
        (send_emails oneS rng0 allOk).ledgerAfter ∧
      oneS.ledgerReadOk = true ∧
      countEligible (ledgerEmails (some [LogEntry.mk "a@b.co" "Success" ""]))
        (loadRecipients oneS) ≤ MAX_EMAILS_PER_SESSION) ∧
    (((send_emails { oneS with ledgerFile := some [LogEntry.mk "a@b.co" "Success" ""] }
        rng0 allOk).log.map LogEntry.email =
      eligibleEmails (ledgerEmails (some [LogEntry.mk "a@b.co" "Success" ""]))
        (loadRecipients oneS)) ∧
    (send_emails { oneS with ledgerFile := some [LogEntry.mk "a@b.co" "Success" ""] }
        rng0 allOk).ledgerAfter =
      some (ledgerRows (some [LogEntry.mk "a@b.co" "Success" ""]) ++
        (send_emails { oneS with ledgerFile := some [LogEntry.mk "a@b.co" "Success" ""] }
          rng0 allOk).log.filter (fun e => e.status == "Success"))) :=
  ⟨⟨by decide, by decide, rfl, by decide⟩,
   C1_rerun_dedup oneS rng0 rng0 allOk allOk
     (some [LogEntry.mk "a@b.co" "Success" ""])
     (by decide) (by decide) rfl (by decide)⟩
